import Mathlib

/-!
Verification development for the blockrs block codec.

The definitions below are shallow embeddings of the Rust functions in
src/block.rs (primary, the pyo3 module named block) and src/lib.rs
(an earlier iteration, the pyo3 module named blockcodec; embedded in the
blockcodec namespace).  Rust strings are modelled as List Char, Rust i32
as Int (no input in this development approaches the i32 range limits),
Rust Vec as List, Rust PyResult as Except String, and a Rust panic
(out-of-bounds index or unwrap of an empty option) as the value none of
an Option-wrapped result type.  Error strings are the literals from the
Rust source; for integer-parse failures the formatted debug payload of
the Rust error is omitted from the message.
-/

set_option maxRecDepth 4000

deriving instance DecidableEq for Except

/-- Embeds the Block struct of src/block.rs: an interval descriptor with
start and stop fields (i32 in Rust). -/
structure Block where
  start : Int
  stop : Int
deriving Repr, DecidableEq

/-- Embeds Block::check_new of src/block.rs lines 57-62: fails when
stop is less than start, otherwise builds the block.  The pyo3
constructor Block::new at lines 32-39 performs the same check. -/
def Block.check_new (start stop : Int) : Except String Block :=
  if stop < start then .error "stop cannot be less than start"
  else .ok ⟨start, stop⟩

/-- The position range denoted by one block, from blocks_to_array of
src/block.rs lines 323-348: ascending start..stop when start is at most
stop, else descending from start down to stop+1. -/
def block_range (b : Block) : List Int :=
  if b.start ≤ b.stop then
    (List.range (b.stop - b.start).toNat).map (fun i => b.start + i)
  else
    (((List.range (b.start - b.stop).toNat).map (fun i => b.stop + 1 + i)).reverse)

/-- Embeds blocks_to_array of src/block.rs lines 323-348 (identical loop
in src/lib.rs lines 152-169): concatenates the range of every block in
list order.  The Rust wraps the result in Ok unconditionally, so the
embedding is a total function. -/
def blocks_to_array : List Block → List Int
  | [] => []
  | b :: rest => block_range b ++ blocks_to_array rest

/-- The scan loop of array_to_blocks in src/block.rs lines 152-207:
state is the open block start, the previous value, the remaining input
and the accumulated blocks; every push goes through Block.check_new and
an error aborts the whole call. -/
def atb_go (start prev : Int) : List Int → List Block → Except String (List Block)
  | [], acc =>
    if prev ≥ 0 then
      match Block.check_new start (prev + 1) with
      | .error e => .error e
      | .ok blk => .ok (acc ++ [blk])
    else
      match Block.check_new start (prev - 1) with
      | .error e => .error e
      | .ok blk => .ok (acc ++ [blk])
  | current :: rest, acc =>
    if prev ≥ 0 ∧ current ≥ 0 then
      if prev + 1 ≠ current then
        match Block.check_new start (prev + 1) with
        | .error e => .error e
        | .ok blk => atb_go current current rest (acc ++ [blk])
      else atb_go start current rest acc
    else if prev ≥ 0 ∧ current < 0 then
      match Block.check_new start (prev + 1) with
      | .error e => .error e
      | .ok blk => atb_go current current rest (acc ++ [blk])
    else if prev < 0 ∧ current < 0 then
      if prev - 1 ≠ current then
        match Block.check_new start (prev - 1) with
        | .error e => .error e
        | .ok blk => atb_go current current rest (acc ++ [blk])
      else atb_go start current rest acc
    else
      match Block.check_new start (prev - 1) with
      | .error e => .error e
      | .ok blk => atb_go current current rest (acc ++ [blk])

/-- Embeds array_to_blocks of src/block.rs lines 144-211.  The Rust
indexes range_list[0] before any emptiness test, so the empty list is a
panic, modelled as none. -/
def array_to_blocks (range_list : List Int) : Option (Except String (List Block)) :=
  match range_list with
  | [] => none
  | first :: rest => some (atb_go first first rest [])

namespace blockcodec

/-- The scan loop of the unchecked array_to_blocks in src/lib.rs lines
39-71: identical case analysis but blocks are built with Block::new,
which performs no validation. -/
def atbU_go (start prev : Int) : List Int → List Block → List Block
  | [], acc =>
    if prev ≥ 0 then acc ++ [⟨start, prev + 1⟩] else acc ++ [⟨start, prev - 1⟩]
  | current :: rest, acc =>
    if prev ≥ 0 ∧ current ≥ 0 then
      if prev + 1 ≠ current then atbU_go current current rest (acc ++ [⟨start, prev + 1⟩])
      else atbU_go start current rest acc
    else if prev ≥ 0 ∧ current < 0 then
      atbU_go current current rest (acc ++ [⟨start, prev + 1⟩])
    else if prev < 0 ∧ current < 0 then
      if prev - 1 ≠ current then atbU_go current current rest (acc ++ [⟨start, prev - 1⟩])
      else atbU_go start current rest acc
    else
      atbU_go current current rest (acc ++ [⟨start, prev - 1⟩])

/-- Embeds array_to_blocks of src/lib.rs lines 34-74: same scan as the
block.rs version but with the unchecked constructor and no Result
wrapper.  The indexing of range_list[0] panics on the empty list,
modelled as none. -/
def array_to_blocks (range_list : List Int) : Option (List Block) :=
  match range_list with
  | [] => none
  | first :: rest => some (atbU_go first first rest [])

end blockcodec

/-- The scan state of pairwise_to_blocks in src/block.rs lines 362-371:
accumulated blocks, running reference-position count, running gap-column
count, the open run start, and the previous column pair. -/
structure PwSt where
  acc : List Block
  seq_cnt : Int
  gap_cnt : Int
  start : Int
  prev_ref : Char
  prev_seq : Char
deriving Repr, DecidableEq

/-- First-column handling of pairwise_to_blocks, src/block.rs lines
373-393: seeds seq_cnt or gap_cnt from the first column pair. -/
def pw_init (g r0 s0 : Char) : PwSt :=
  if r0 ≠ g ∧ s0 ≠ g then ⟨[], 1, 0, 0, r0, s0⟩
  else if r0 ≠ g ∧ s0 = g then ⟨[], 1, 0, 0, r0, s0⟩
  else if r0 = g ∧ s0 = g then ⟨[], 0, 0, 0, r0, s0⟩
  else ⟨[], 0, 1, 0, r0, s0⟩

/-- One iteration of the column loop of pairwise_to_blocks, src/block.rs
lines 396-523: the outer four-way split on the current pair (a, b), the
inner four-way split on gap_cnt and the previous pair, with every block
pushed through Block.check_new.  Branch combinations with no Rust arm
fall through unchanged.  The previous pair is updated at the end. -/
def pw_step (g : Char) (st : PwSt) (a b : Char) : Except String PwSt :=
  let res : Except String PwSt :=
    if a ≠ g ∧ b ≠ g then
      let inner : Except String PwSt :=
        if st.gap_cnt = 0 ∧ (st.prev_ref ≠ g ∧ st.prev_seq ≠ g) then .ok st
        else if st.gap_cnt = 0 ∧ (st.prev_ref ≠ g ∧ st.prev_seq = g) then
          .ok { st with start := st.seq_cnt }
        else if st.gap_cnt = 0 ∧ (st.prev_ref = g ∧ st.prev_seq = g) then
          .ok { st with start := st.seq_cnt }
        else if st.gap_cnt > 0 ∧ (st.prev_ref = g ∧ st.prev_seq ≠ g) then
          match Block.check_new (-1) (-1 - st.gap_cnt) with
          | .error e => .error e
          | .ok blk => .ok { st with acc := st.acc ++ [blk], gap_cnt := 0, start := st.seq_cnt }
        else .ok st
      inner.map (fun s => { s with seq_cnt := s.seq_cnt + 1 })
    else if a ≠ g ∧ b = g then
      let inner : Except String PwSt :=
        if st.gap_cnt = 0 ∧ (st.prev_ref ≠ g ∧ st.prev_seq ≠ g) then
          match Block.check_new st.start st.seq_cnt with
          | .error e => .error e
          | .ok blk => .ok { st with acc := st.acc ++ [blk] }
        else if st.gap_cnt = 0 ∧ (st.prev_ref ≠ g ∧ st.prev_seq = g) then .ok st
        else if st.gap_cnt = 0 ∧ (st.prev_ref = g ∧ st.prev_seq = g) then .ok st
        else if st.gap_cnt > 0 ∧ (st.prev_ref = g ∧ st.prev_seq ≠ g) then
          match Block.check_new (-1) (-1 - st.gap_cnt) with
          | .error e => .error e
          | .ok blk => .ok { st with acc := st.acc ++ [blk], gap_cnt := 0 }
        else .ok st
      inner.map (fun s => { s with seq_cnt := s.seq_cnt + 1 })
    else if a = g ∧ b = g then
      if st.gap_cnt = 0 ∧ (st.prev_ref ≠ g ∧ st.prev_seq ≠ g) then
        match Block.check_new st.start st.seq_cnt with
        | .error e => .error e
        | .ok blk => .ok { st with acc := st.acc ++ [blk] }
      else if st.gap_cnt = 0 ∧ (st.prev_ref ≠ g ∧ st.prev_seq = g) then .ok st
      else if st.gap_cnt = 0 ∧ (st.prev_ref = g ∧ st.prev_seq = g) then .ok st
      else if st.gap_cnt > 0 ∧ (st.prev_ref = g ∧ st.prev_seq ≠ g) then
        match Block.check_new (-1) (-1 - st.gap_cnt) with
        | .error e => .error e
        | .ok blk => .ok { st with acc := st.acc ++ [blk], gap_cnt := 0 }
      else .ok st
    else
      let inner : Except String PwSt :=
        if st.gap_cnt = 0 ∧ (st.prev_ref ≠ g ∧ st.prev_seq ≠ g) then
          match Block.check_new st.start st.seq_cnt with
          | .error e => .error e
          | .ok blk => .ok { st with acc := st.acc ++ [blk], start := st.seq_cnt }
        else .ok st
      inner.map (fun s => { s with gap_cnt := s.gap_cnt + 1 })
  res.map (fun s => { s with prev_ref := a, prev_seq := b })

/-- The column loop of pairwise_to_blocks over the zipped tails of the
two sequences, src/block.rs line 396. -/
def pw_loop (g : Char) (st : PwSt) : List (Char × Char) → Except String PwSt
  | [] => .ok st
  | (a, b) :: rest =>
    match pw_step g st a b with
    | .error e => .error e
    | .ok st2 => pw_loop g st2 rest

/-- Final-block handling of pairwise_to_blocks, src/block.rs lines
526-554: flush an open gap run, else an open aligned run. -/
def pw_finish (g : Char) (st : PwSt) : Except String (List Block) :=
  if st.gap_cnt > 0 then
    match Block.check_new (-1) (-1 - st.gap_cnt) with
    | .error e => .error e
    | .ok blk => .ok (st.acc ++ [blk])
  else if st.prev_ref ≠ g ∧ st.prev_seq ≠ g then
    match Block.check_new st.start st.seq_cnt with
    | .error e => .error e
    | .ok blk => .ok (st.acc ++ [blk])
  else .ok st.acc

/-- Embeds pairwise_to_blocks of src/block.rs lines 355-563 (the debug
trace prints are omitted; they do not affect the result).  The length
check returns an error first; after it, the Rust unwraps the first
character of the reference, of the other sequence and of the gap string,
so an empty reference (hence empty other) or an empty gap string is a
panic, modelled as none. -/
def pairwise_to_blocks (ref_seq other_seq gap_char : List Char) :
    Option (Except String (List Block)) :=
  if ref_seq.length ≠ other_seq.length then
    some (.error "sequence lengths are not the same")
  else
    match ref_seq, other_seq, gap_char with
    | r0 :: rtail, s0 :: stail, g :: _ =>
      some (match pw_loop g (pw_init g r0 s0) (rtail.zip stail) with
            | .error e => .error e
            | .ok st => pw_finish g st)
    | _, _, _ => none

namespace blockcodec

/-- The unchecked column step of pairwise_to_blocks in src/lib.rs lines
211-318: same case analysis as the block.rs version, but blocks are
built with Block::new (no validation) and the gap character is the
literal dash. -/
def pwU_step (st : PwSt) (a b : Char) : PwSt :=
  let g : Char := '-'
  let res : PwSt :=
    if a ≠ g ∧ b ≠ g then
      let inner : PwSt :=
        if st.gap_cnt = 0 ∧ (st.prev_ref ≠ g ∧ st.prev_seq ≠ g) then st
        else if st.gap_cnt = 0 ∧ (st.prev_ref ≠ g ∧ st.prev_seq = g) then
          { st with start := st.seq_cnt }
        else if st.gap_cnt = 0 ∧ (st.prev_ref = g ∧ st.prev_seq = g) then
          { st with start := st.seq_cnt }
        else if st.gap_cnt > 0 ∧ (st.prev_ref = g ∧ st.prev_seq ≠ g) then
          { st with acc := st.acc ++ [⟨-1, -1 - st.gap_cnt⟩], gap_cnt := 0, start := st.seq_cnt }
        else st
      { inner with seq_cnt := inner.seq_cnt + 1 }
    else if a ≠ g ∧ b = g then
      let inner : PwSt :=
        if st.gap_cnt = 0 ∧ (st.prev_ref ≠ g ∧ st.prev_seq ≠ g) then
          { st with acc := st.acc ++ [⟨st.start, st.seq_cnt⟩] }
        else if st.gap_cnt > 0 ∧ (st.prev_ref = g ∧ st.prev_seq ≠ g) then
          { st with acc := st.acc ++ [⟨-1, -1 - st.gap_cnt⟩], gap_cnt := 0 }
        else st
      { inner with seq_cnt := inner.seq_cnt + 1 }
    else if a = g ∧ b = g then
      if st.gap_cnt = 0 ∧ (st.prev_ref ≠ g ∧ st.prev_seq ≠ g) then
        { st with acc := st.acc ++ [⟨st.start, st.seq_cnt⟩] }
      else if st.gap_cnt > 0 ∧ (st.prev_ref = g ∧ st.prev_seq ≠ g) then
        { st with acc := st.acc ++ [⟨-1, -1 - st.gap_cnt⟩], gap_cnt := 0 }
      else st
    else
      let inner : PwSt :=
        if st.gap_cnt = 0 ∧ (st.prev_ref ≠ g ∧ st.prev_seq ≠ g) then
          { st with acc := st.acc ++ [⟨st.start, st.seq_cnt⟩], start := st.seq_cnt }
        else st
      { inner with gap_cnt := inner.gap_cnt + 1 }
  { res with prev_ref := a, prev_seq := b }

/-- The column loop of the src/lib.rs pairwise_to_blocks. -/
def pwU_loop (st : PwSt) : List (Char × Char) → PwSt
  | [] => st
  | (a, b) :: rest => pwU_loop (pwU_step st a b) rest

/-- Final-block handling of the src/lib.rs pairwise_to_blocks, lines
321-343. -/
def pwU_finish (st : PwSt) : List Block :=
  if st.gap_cnt > 0 then st.acc ++ [⟨-1, -1 - st.gap_cnt⟩]
  else if st.prev_ref ≠ '-' ∧ st.prev_seq ≠ '-' then st.acc ++ [⟨st.start, st.seq_cnt⟩]
  else st.acc

/-- Embeds pairwise_to_blocks of src/lib.rs lines 172-352: a length
mismatch only prints a message and the scan continues over the zipped
(hence truncated) pair; the unwraps of the first characters panic on an
empty sequence, modelled as none. -/
def pairwise_to_blocks (ref_seq other_seq : List Char) : Option (List Block) :=
  match ref_seq, other_seq with
  | r0 :: rtail, s0 :: stail =>
    some (pwU_finish (pwU_loop (pw_init '-' r0 s0) (rtail.zip stail)))
  | _, _ => none

end blockcodec

/-- Rust str::split on the semicolon character, as used by
from_block_str: the empty string yields one empty chunk. -/
def split_semi : List Char → List (List Char)
  | [] => [[]]
  | c :: rest =>
    if c = ';' then [] :: split_semi rest
    else
      match split_semi rest with
      | h :: t => (c :: h) :: t
      | [] => [[c]]

/-- Rust str::rfind of the colon character: index of its last occurrence. -/
def rfind_colon (s : List Char) : Option Nat :=
  match s with
  | [] => none
  | c :: rest =>
    match rfind_colon rest with
    | some i => some (i + 1)
    | none => if c = ':' then some 0 else none

/-- Rust i32::from_str as used by from_block_str: an optional sign
followed by at least one decimal digit, rejecting values outside the
i32 range.  All inputs here are ASCII. -/
def parse_i32 (s : List Char) : Option Int :=
  let core : Int → List Char → Option Int := fun sign digits =>
    if digits = [] then none
    else if digits.all (fun c => c.isDigit) then
      let v : Int := sign * ((digits.foldl (fun acc c => acc * 10 + (c.toNat - 48)) 0 : Nat) : Int)
      if v < -2147483648 ∨ 2147483647 < v then none else some v
    else none
  match s with
  | '+' :: rest => core 1 rest
  | '-' :: rest => core (-1) rest
  | _ => core 1 s

/-- The chunk loop of from_block_str, src/block.rs lines 100-121: each
chunk is split at the last colon, both halves parsed as i32, and the
block built through Block.check_new.  The Rust integer-parse error
messages carry a formatted debug payload that is omitted here. -/
def from_block_str_go : List (List Char) → Except String (List Block)
  | [] => .ok []
  | chunk :: rest =>
    match rfind_colon chunk with
    | none => .error "separator \":\" not found"
    | some sep_idx =>
      match parse_i32 (chunk.take sep_idx) with
      | none => .error "cannot convert start value from &str to i32"
      | some start =>
        match parse_i32 ((chunk.drop sep_idx).dropWhile (fun c => c = ':')) with
        | none => .error "cannot convert end value from &str to i32"
        | some stop =>
          match Block.check_new start stop with
          | .error e => .error e
          | .ok blk =>
            match from_block_str_go rest with
            | .error e => .error e
            | .ok blks => .ok (blk :: blks)

/-- Embeds from_block_str of src/block.rs lines 81-124: split the input
on semicolons and parse every chunk into a validated Block. -/
def from_block_str (data_str : String) : Except String (List Block) :=
  from_block_str_go (split_semi data_str.toList)

/-- Embeds to_block_str of src/block.rs lines 130-137: formats each
block as start colon stop and joins the pieces with semicolons.  The
Rust wraps the result in Ok unconditionally. -/
def to_block_str (block_list : List Block) : String :=
  String.intercalate ";" (block_list.map (fun b => toString b.start ++ ":" ++ toString b.stop))

/-- The present-slot body of the pair loop in option_array_to_blocks,
src/block.rs lines 232-285: prev is the value of the current slot a,
b the next slot; applies the four-case direction rule when b is
present, and closes the open block with a reset start sentinel when b
is absent.  Returns the updated open-block start and accumulator. -/
def oatb_step_core (start2 : Int) (acc : List Block) (prev : Int) (b : Option Int) :
    Except String (Int × List Block) :=
  match b with
    | some current =>
      if prev ≥ 0 ∧ current ≥ 0 then
        if prev + 1 ≠ current then
          match Block.check_new start2 (prev + 1) with
          | .error e => .error e
          | .ok blk => .ok (current, acc ++ [blk])
        else .ok (start2, acc)
      else if prev ≥ 0 ∧ current < 0 then
        match Block.check_new start2 (prev + 1) with
        | .error e => .error e
        | .ok blk => .ok (current, acc ++ [blk])
      else if prev < 0 ∧ current < 0 then
        if prev - 1 ≠ current then
          match Block.check_new start2 (prev - 1) with
          | .error e => .error e
          | .ok blk => .ok (current, acc ++ [blk])
        else .ok (start2, acc)
      else
        match Block.check_new start2 (prev - 1) with
        | .error e => .error e
        | .ok blk => .ok (current, acc ++ [blk])
    | none =>
      if prev ≥ 0 then
        match Block.check_new start2 (prev + 1) with
        | .error e => .error e
        | .ok blk => .ok (-1000000000, acc ++ [blk])
      else
        match Block.check_new start2 (prev - 1) with
        | .error e => .error e
        | .ok blk => .ok (-1000000000, acc ++ [blk])

/-- One iteration of the pair loop in option_array_to_blocks,
src/block.rs lines 224-295: a is the current slot, b the next one.
When a holds a value, a pending start sentinel of -1000000000 (the Rust
-1e9 as i32) is replaced by that value before oatb_step_core runs the
four-case rule; when a is absent, a present b restarts the pending
block at its value. -/
def oatb_step (start : Int) (acc : List Block) (a b : Option Int) :
    Except String (Int × List Block) :=
  match a with
  | some u => oatb_step_core (if start = -1000000000 then u else start) acc u b
  | none =>
    match b with
    | some v => .ok (v, acc)
    | none => .ok (start, acc)

/-- The pair loop and final flush of option_array_to_blocks,
src/block.rs lines 224-313: iterates over consecutive slot pairs; after
the loop the last slot, when present, closes the open block.  The flush
uses the current start value as the Rust does, sentinel included. -/
def oatb_go (start : Int) (acc : List Block) :
    Option Int → List (Option Int) → Except String (List Block)
  | prev_item, [] =>
    match prev_item with
    | some u =>
      if u ≥ 0 then
        match Block.check_new start (u + 1) with
        | .error e => .error e
        | .ok blk => .ok (acc ++ [blk])
      else
        match Block.check_new start (u - 1) with
        | .error e => .error e
        | .ok blk => .ok (acc ++ [blk])
    | none => .ok acc
  | a, b :: rest =>
    match oatb_step start acc a b with
    | .error e => .error e
    | .ok (start2, acc2) => oatb_go start2 acc2 b rest

/-- Embeds option_array_to_blocks of src/block.rs lines 215-316.  The
Rust indexes range_list[0] before anything else, so the empty list is a
panic, modelled as none. -/
def option_array_to_blocks (range_list : List (Option Int)) :
    Option (Except String (List Block)) :=
  match range_list with
  | [] => none
  | first :: rest => some (oatb_go (-1000000000) [] first rest)

/-- The absolute-position array built by remove_sites, src/block.rs
lines 597-604: one slot per sequence character, consuming the decoded
block coordinates left to right at non-gap characters.  The Rust
indexes block_array[x]; under the length guard of remove_sites the
index is always in bounds, so the headI default is unreachable. -/
def build_abs (gap_char : Char) : List Char → List Int → List (Option Int)
  | [], _ => []
  | c :: cs, coords =>
    if c = gap_char then none :: build_abs gap_char cs coords
    else some coords.headI :: build_abs gap_char cs coords.tail

/-- Rust sort_unstable followed by reverse on the removal list,
src/block.rs lines 606-607: descending order with duplicates kept.
Insertion sort produces the same list as any comparison sort here,
since sorted permutations of a list of naturals coincide. -/
def sortDesc (l : List Nat) : List Nat :=
  (List.insertionSort (fun a b => a ≤ b) l).reverse

/-- The removal loop of remove_sites, src/block.rs lines 608-615: each
index is checked against the current (shrinking) array length and then
removed from both parallel arrays. -/
def remove_loop : List Nat → List (Option Int) → List Char →
    Except String (List (Option Int) × List Char)
  | [], abs2, sq => .ok (abs2, sq)
  | i :: rest, abs2, sq =>
    if i < abs2.length then remove_loop rest (abs2.eraseIdx i) (sq.eraseIdx i)
    else .error "position out of range"

/-- Embeds remove_sites of src/block.rs lines 570-631.  The gap symbol
is modelled as the character the Rust extracts from its gap string.
An empty removal list returns the inputs unchanged before anything
else; then the decoded block coordinates must match the sequence length
exactly; then the sorted-descending removal loop runs, an emptied
sequence short-circuits to an empty result, and otherwise the remaining
option array is re-encoded by option_array_to_blocks. -/
def remove_sites (seq : List Char) (block_list : List Block)
    (remove_pos_list : List Nat) (gap_char : Char) :
    Option (Except String (List Char × List Block)) :=
  if remove_pos_list = [] then some (.ok (seq, block_list))
  else if (blocks_to_array block_list).length ≠ seq.length then
    some (.error "sequence length and block range are not equal")
  else
    match remove_loop (sortDesc remove_pos_list)
        (build_abs gap_char seq (blocks_to_array block_list)) seq with
    | .error e => some (.error e)
    | .ok (abs2, seq2) =>
      if seq2 = [] then some (.ok ([], []))
      else
        match option_array_to_blocks abs2 with
        | none => none
        | some (.error e) => some (.error e)
        | some (.ok new_blocks) => some (.ok (seq2, new_blocks))


/-! Helper lemmas about the embedded functions. -/

lemma check_new_error_msg {s t : Int} {e : String}
    (h : Block.check_new s t = .error e) : e = "stop cannot be less than start" := by
  unfold Block.check_new at h
  split at h
  · injection h with h2
    exact h2.symm
  · exact Except.noConfusion h

lemma oatb_step_core_error_msg {start2 : Int} {acc : List Block} {prev : Int}
    {b : Option Int} {e : String}
    (h : oatb_step_core start2 acc prev b = .error e) :
    e = "stop cannot be less than start" := by
  unfold oatb_step_core at h
  repeat' split at h
  all_goals try exact Except.noConfusion h
  all_goals (injection h with h2; subst h2; exact check_new_error_msg (by assumption))

lemma oatb_step_error_msg {start : Int} {acc : List Block} {a b : Option Int} {e : String}
    (h : oatb_step start acc a b = .error e) : e = "stop cannot be less than start" := by
  unfold oatb_step at h
  repeat' split at h
  all_goals try exact Except.noConfusion h
  all_goals exact oatb_step_core_error_msg h

lemma oatb_go_error_msg (l : List (Option Int)) :
    ∀ (start : Int) (acc : List Block) (p : Option Int) {e : String},
      oatb_go start acc p l = .error e → e = "stop cannot be less than start" := by
  induction l with
  | nil =>
    intro start acc p e h
    unfold oatb_go at h
    repeat' split at h
    all_goals try exact Except.noConfusion h
    all_goals (injection h with h2; subst h2; exact check_new_error_msg (by assumption))
  | cons b rest ih =>
    intro start acc p e h
    unfold oatb_go at h
    split at h
    · injection h with h2
      subst h2
      exact oatb_step_error_msg (by assumption)
    · exact ih _ _ _ h

lemma option_array_to_blocks_error_msg {l : List (Option Int)} {e : String}
    (h : option_array_to_blocks l = some (.error e)) :
    e = "stop cannot be less than start" := by
  unfold option_array_to_blocks at h
  split at h
  · exact Option.noConfusion h
  · injection h with h2
    exact oatb_go_error_msg _ _ _ _ h2

lemma remove_loop_error_msg (l : List Nat) :
    ∀ (abs2 : List (Option Int)) (sq : List Char) {e : String},
      remove_loop l abs2 sq = .error e → e = "position out of range" := by
  induction l with
  | nil =>
    intro abs2 sq e h
    exact Except.noConfusion h
  | cons i rest ih =>
    intro abs2 sq e h
    unfold remove_loop at h
    split at h
    · exact ih _ _ h
    · injection h with h2
      exact h2.symm

lemma remove_loop_ok (l : List Nat) :
    ∀ (abs2 : List (Option Int)) (sq : List Char),
      l.Pairwise (fun a b => b < a) → (∀ i ∈ l, i < abs2.length) →
      ∃ p, remove_loop l abs2 sq = .ok p := by
  induction l with
  | nil => exact fun abs2 sq _ _ => ⟨(abs2, sq), rfl⟩
  | cons i rest ih =>
    intro abs2 sq hpw hbd
    have hi : i < abs2.length := hbd i (List.mem_cons_self i rest)
    have hcons := List.pairwise_cons.mp hpw
    unfold remove_loop
    rw [if_pos hi]
    apply ih
    · exact hcons.2
    · intro j hj
      have hji : j < i := hcons.1 j hj
      have hlen : (abs2.eraseIdx i).length = abs2.length - 1 :=
        List.length_eraseIdx_of_lt hi
      omega

lemma build_abs_length (g : Char) (s : List Char) :
    ∀ coords : List Int, (build_abs g s coords).length = s.length := by
  induction s with
  | nil => intro coords; rfl
  | cons c cs ih =>
    intro coords
    unfold build_abs
    split <;> simp [ih]

lemma mem_sortDesc {l : List Nat} {i : Nat} : i ∈ sortDesc l ↔ i ∈ l := by
  simp [sortDesc]

lemma sortDesc_pairwise_le (l : List Nat) : (sortDesc l).Pairwise (fun a b => b ≤ a) := by
  unfold sortDesc
  rw [List.pairwise_reverse]
  exact List.sorted_insertionSort _ l

lemma sortDesc_pairwise_gt {l : List Nat} (h : l.Nodup) :
    (sortDesc l).Pairwise (fun a b => b < a) := by
  unfold sortDesc
  rw [List.pairwise_reverse]
  have hs : (List.insertionSort (fun a b => a ≤ b) l).Pairwise (fun a b => a ≤ b) :=
    List.sorted_insertionSort _ l
  have hn : (List.insertionSort (fun a b => a ≤ b) l).Nodup :=
    ((List.perm_insertionSort _ l).nodup_iff).mpr h
  exact (hs.and hn).imp (fun h2 => lt_of_le_of_ne h2.1 h2.2)

/-! Claim theorems. -/

/-- C1: the claim states that pairwise_to_blocks on reference "AC-GT"
and other "ACXGT" with gap symbol '-' returns Ok of the three blocks
(0,2), (-1,-2), (2,4).  The src/block.rs function instead returns the
error of Block.check_new when it closes the gap-run sentinel (-1,-2),
because check_new rejects every stop < start; the unchecked src/lib.rs
iteration of the same scan produces exactly the claimed blocks, showing
the claimed output is the documented intent and the validation the
slip. -/
theorem pairwise_to_blocks_insertion_example :
    pairwise_to_blocks "AC-GT".toList "ACXGT".toList ['-'] =
        some (.error "stop cannot be less than start") ∧
      blockcodec.pairwise_to_blocks "AC-GT".toList "ACXGT".toList =
        some [⟨0, 2⟩, ⟨-1, -2⟩, ⟨2, 4⟩] :=
  ⟨by decide, by decide⟩

/-- C2: the claim states that array_to_blocks on [0,1,2,-1,-2] returns
Ok of the two blocks (0,3) and (-1,-3).  The src/block.rs function
instead returns the check_new error when it flushes the final negative
run as (-1,-3), because check_new rejects every stop < start; the
unchecked src/lib.rs iteration produces exactly the claimed two blocks. -/
theorem array_to_blocks_direction_switch_example :
    array_to_blocks [0, 1, 2, -1, -2] =
        some (.error "stop cannot be less than start") ∧
      blockcodec.array_to_blocks [0, 1, 2, -1, -2] = some [⟨0, 3⟩, ⟨-1, -3⟩] :=
  ⟨by decide, by decide⟩

/-- C3: the claim states that constructing a Block with stop equal to
start fails with an InvalidRange error.  Block.check_new only rejects
stop < start, so every zero-width block is accepted, contradicting the
Block doc comment of src/block.rs lines 15-18 which requires stop
strictly greater than start for non-negative starts. -/
theorem check_new_accepts_zero_width :
    ∀ s : Int, Block.check_new s s = .ok ⟨s, s⟩ := by
  intro s
  unfold Block.check_new
  rw [if_neg (lt_irrefl s)]

/-- C4: the claim states that from_block_str inverts to_block_str on
every block list satisfying the Block invariant, including reverse
blocks such as (-1,-4), and that [(0,5),(-1,-4)] formats to
"0:5;-1:-4".  The formatting half holds, but parsing the string back
fails because from_block_str validates each chunk with check_new, which
rejects the documented reverse-block shape stop < start. -/
theorem block_str_round_trip_reverse_fails :
    to_block_str [⟨0, 5⟩, ⟨-1, -4⟩] = "0:5;-1:-4" ∧
      from_block_str "0:5;-1:-4" = .error "stop cannot be less than start" :=
  ⟨by decide, by decide⟩

/-- C5: the claim states that blocks_to_array inverts array_to_blocks
on every non-empty position array without adjacent duplicates.  For
P = [-1] the src/block.rs encoder already fails: flushing the negative
run calls check_new with stop < start.  The unchecked src/lib.rs
encoder returns the block (-1,-2), and decoding that block does give
back [-1], showing the round trip is the intent and the validation the
slip. -/
theorem encode_decode_negative_fails :
    array_to_blocks [-1] = some (.error "stop cannot be less than start") ∧
      blockcodec.array_to_blocks [-1] = some [⟨-1, -2⟩] ∧
      blocks_to_array [⟨-1, -2⟩] = [-1] :=
  ⟨by decide, by decide, by decide⟩

/-- C6 counterexample: the claim states remove_sites fails with
LengthMismatch exactly when the decoded coordinate count differs from
the non-gap character count.  For sequence "A-" with blocks [(0,1)] the
decoded count (one coordinate) equals the non-gap count (one
character), yet the call fails, because the code compares the decoded
count against the full sequence length, gaps included. -/
theorem remove_sites_length_mismatch_counterexample :
    remove_sites ['A', '-'] [⟨0, 1⟩] [0] '-' =
        some (.error "sequence length and block range are not equal") ∧
      (blocks_to_array [⟨0, 1⟩]).length =
        (List.filter (fun c => c ≠ '-') ['A', '-']).length :=
  ⟨by decide, by decide⟩

/-- C6 amended: with a non-empty removal list, remove_sites fails with
the LengthMismatch error exactly when the decoded coordinate count
differs from the total character count of the sequence, gap characters
included. -/
theorem remove_sites_length_mismatch_iff (seq : List Char) (blocks : List Block)
    (remove : List Nat) (g : Char) (hne : remove ≠ []) :
    remove_sites seq blocks remove g =
        some (.error "sequence length and block range are not equal") ↔
      (blocks_to_array blocks).length ≠ seq.length := by
  constructor
  · intro h
    by_contra hl
    unfold remove_sites at h
    rw [if_neg hne, if_neg (by simp [hl])] at h
    split at h
    · injection h with h2
      injection h2 with h3
      have h4 := remove_loop_error_msg _ _ _ (by assumption)
      rw [h4] at h3
      exact absurd h3 (by decide)
    · split at h
      · exact absurd h (by simp)
      · split at h
        · exact Option.noConfusion h
        · injection h with h2
          injection h2 with h3
          have h4 := option_array_to_blocks_error_msg (by assumption)
          rw [h4] at h3
          exact absurd h3 (by decide)
        · exact absurd h (by simp)
  · intro hl
    unfold remove_sites
    rw [if_neg hne, if_pos hl]

/-- C6 witness: a concrete application of the amended
characterization, at sequence "A-" with blocks [(0,1)]. -/
theorem remove_sites_length_mismatch_iff_witness :
    remove_sites ['A', '-'] [⟨0, 1⟩] [0] '-' =
      some (.error "sequence length and block range are not equal") :=
  (remove_sites_length_mismatch_iff ['A', '-'] [⟨0, 1⟩] [0] '-' (by decide)).mpr (by decide)

/-- C7 counterexample: the claim states that array_to_blocks on the
empty array returns an EmptyInput error.  The src/block.rs function
indexes range_list[0] before any emptiness test, so the call panics
(modelled as none) and no error value of any kind is returned. -/
theorem array_to_blocks_empty_counterexample :
    array_to_blocks ([] : List Int) = none := rfl

/-- C7 amended: array_to_blocks does not return on the empty position
array, panicking on an out-of-bounds index instead of producing an
EmptyInput error; it returns a value exactly when its input is
non-empty, which is the function precondition. -/
theorem array_to_blocks_none_iff_empty :
    ∀ P : List Int, array_to_blocks P = none ↔ P = [] := by
  intro P
  cases P <;> simp [array_to_blocks]

/-- C8: remove_sites with an empty removal list returns the sequence
and the block list unchanged, for every sequence, block list and gap
symbol. -/
theorem remove_sites_empty_removal_noop :
    ∀ (seq : List Char) (blocks : List Block) (g : Char),
      remove_sites seq blocks [] g = some (.ok (seq, blocks)) :=
  fun _ _ _ => rfl

/-- C9 counterexample: the claim states that when every requested
removal index, duplicates included, is strictly below the sequence
length, no IndexOutOfRange error occurs.  Removing [1,1] from the
length-2 sequence "AB" fails with the index error: the second copy of
index 1 is checked against the already-shrunk array of length 1. -/
theorem remove_sites_duplicate_index_counterexample :
    remove_sites ['A', 'B'] [⟨0, 2⟩] [1, 1] '-' =
        some (.error "position out of range") ∧
      ∀ i ∈ [1, 1], i < (['A', 'B'] : List Char).length :=
  ⟨by decide, by decide⟩

/-- C9 amended: with a non-empty removal list and decoded coordinates
matching the sequence length, remove_sites fails with IndexOutOfRange
whenever some requested index reaches the sequence length, and never
fails with IndexOutOfRange when the requested indices are distinct and
all strictly below the sequence length; with duplicates the check runs
against the array as it shrinks, so the claimed iff fails. -/
theorem remove_sites_index_check (seq : List Char) (blocks : List Block)
    (remove : List Nat) (g : Char) (hne : remove ≠ [])
    (hlen : (blocks_to_array blocks).length = seq.length) :
    ((∃ i ∈ remove, seq.length ≤ i) →
        remove_sites seq blocks remove g = some (.error "position out of range")) ∧
      (remove.Nodup → (∀ i ∈ remove, i < seq.length) →
        remove_sites seq blocks remove g ≠ some (.error "position out of range")) := by
  have habs : (build_abs g seq (blocks_to_array blocks)).length = seq.length :=
    build_abs_length g seq (blocks_to_array blocks)
  constructor
  · rintro ⟨i, hi_mem, hi_ge⟩
    have himem : i ∈ sortDesc remove := mem_sortDesc.mpr hi_mem
    unfold remove_sites
    rw [if_neg hne, if_neg (by simp [hlen])]
    cases hsd : sortDesc remove with
    | nil =>
      rw [hsd] at himem
      exact absurd himem (List.not_mem_nil i)
    | cons j t =>
      have hji : i ≤ j := by
        have hpw := sortDesc_pairwise_le remove
        rw [hsd] at hpw
        rw [hsd] at himem
        rcases List.mem_cons.mp himem with h | h
        · exact le_of_eq h
        · exact (List.pairwise_cons.mp hpw).1 i h
      have hrl : remove_loop (j :: t) (build_abs g seq (blocks_to_array blocks)) seq =
          .error "position out of range" := by
        unfold remove_loop
        rw [if_neg (by rw [habs]; omega)]
      rw [hrl]
  · intro hnd hlt hcontra
    have hpw := sortDesc_pairwise_gt hnd
    have hbd : ∀ i ∈ sortDesc remove, i < (build_abs g seq (blocks_to_array blocks)).length := by
      intro i hi
      rw [habs]
      exact hlt i (mem_sortDesc.mp hi)
    obtain ⟨p, hp⟩ := remove_loop_ok (sortDesc remove) _ seq hpw hbd
    obtain ⟨abs2, seq2⟩ := p
    unfold remove_sites at hcontra
    rw [if_neg hne, if_neg (by simp [hlen]), hp] at hcontra
    dsimp only at hcontra
    split at hcontra
    · exact absurd hcontra (by simp)
    · split at hcontra
      · exact Option.noConfusion hcontra
      · injection hcontra with h2
        injection h2 with h3
        have h4 := option_array_to_blocks_error_msg (by assumption)
        rw [h4] at h3
        exact absurd h3 (by decide)
      · exact absurd hcontra (by simp)

/-- C9 witness: a concrete application of the amended
characterization, removing the single in-range index 0 from "AB". -/
theorem remove_sites_index_check_witness :
    remove_sites ['A', 'B'] [⟨0, 2⟩] [0] '-' ≠ some (.error "position out of range") :=
  (remove_sites_index_check ['A', 'B'] [⟨0, 2⟩] [0] '-' (by decide) (by decide)).2
    (by decide) (by decide)

/-- C10: pairwise_to_blocks on two empty sequences passes the length
check and then reaches the unguarded extraction of the first reference
character, so it does not return a value; it returns a value for every
call in which both sequences and the gap string are non-empty. -/
theorem pairwise_to_blocks_partiality :
    pairwise_to_blocks [] [] ['-'] = none ∧
      ∀ (r o g : List Char), r ≠ [] → o ≠ [] → g ≠ [] →
        (pairwise_to_blocks r o g).isSome = true := by
  refine ⟨rfl, ?_⟩
  intro r o g hr ho hg
  unfold pairwise_to_blocks
  by_cases hlen : r.length ≠ o.length
  · rw [if_pos hlen]
    rfl
  · rw [if_neg hlen]
    cases r with
    | nil => exact absurd rfl hr
    | cons r0 rt =>
      cases o with
      | nil => exact absurd rfl ho
      | cons s0 st =>
        cases g with
        | nil => exact absurd rfl hg
        | cons g0 gt => rfl

/-- C10 witness: a concrete application of the totality half at the
one-column alignment of "A" against "C". -/
theorem pairwise_to_blocks_partiality_witness :
    (pairwise_to_blocks ['A'] ['C'] ['-']).isSome = true :=
  pairwise_to_blocks_partiality.2 ['A'] ['C'] ['-'] (by decide) (by decide) (by decide)
